import Mathlib

set_option maxRecDepth 100000

/-!
Shallow embedding of the PCX decoder of this repository
(`pcx_header.py`, `pcx_rle.py`, `utils/pcx.py`).

Files are modelled as lists of byte values (`List Nat`, each entry a byte
in `0..255`).  Fallible Python functions that raise `PCXError` /
`InvalidPCXError` are modelled as functions into `Except PCXErr`.
-/

/-- Error taxonomy of the decoder: each constructor models one of the
`InvalidPCXError` raise sites, carrying the data interpolated into the
Python error message. -/
inductive PCXErr where
  | tooSmallHeader (actual required : Nat)
  | invalidHeader (errors : List String)
  | missingRunValue
  | incompleteData (got expected : Nat)
  | tooSmallForPalette
  | missingPaletteMarker
  deriving DecidableEq

/-- Python's IndexError, raised by `line_data[x]` in `_create_8bit_qimage`
when a scanline is shorter than the image width. -/
inductive PyErr where
  | indexError
  deriving DecidableEq

/-- Uppercase hex digit, as produced by Python's `"%X"` formatting. -/
def hexDigitUpper (n : Nat) : Char :=
  if n < 10 then Char.ofNat (48 + n) else Char.ofNat (55 + n)

/-- Python's `f"{n:02X}"` for a byte value `n < 256`. -/
def hex2 (n : Nat) : String :=
  String.mk [hexDigitUpper (n / 16 % 16), hexDigitUpper (n % 16)]

/-- The `PCXHeader` dataclass of `pcx_header.py`: raw fields in struct
order `<BBBBHHHHHH48sBBHHHH54s` (all multi-byte fields unsigned
little-endian), plus the derived fields computed in `__post_init__`.
`width`/`height` are `Int` because Python computes them with unbounded
signed integers. -/
structure PCXHeader where
  manufacturer : Nat
  version : Nat
  encoding : Nat
  bits_per_pixel : Nat
  xmin : Nat
  ymin : Nat
  xmax : Nat
  ymax : Nat
  hdpi : Nat
  vdpi : Nat
  colormap : List Nat
  reserved : Nat
  num_planes : Nat
  bytes_per_line : Nat
  palette_type : Nat
  hscreen_size : Nat
  vscreen_size : Nat
  filler : List Nat
  width : Int
  height : Int
  color_mode : String
  deriving DecidableEq

/-- `PCXHeader._determine_color_mode`. -/
def determine_color_mode (bits_per_pixel num_planes : Nat) : String :=
  let total_bits := bits_per_pixel * num_planes
  if total_bits = 1 then "1-bit Monochrome"
  else if total_bits = 2 then "2-bit (4 colors)"
  else if total_bits = 4 then "4-bit (16 colors)"
  else if total_bits = 8 then "8-bit (256 colors)"
  else if total_bits = 24 then "24-bit True Color (RGB)"
  else "Unknown (" ++ toString total_bits ++ "-bit)"

/-- Dataclass construction followed by `__post_init__`: the derived fields
`width = xmax - xmin + 1`, `height = ymax - ymin + 1` and `color_mode` are
computed once at construction time. -/
def mkPCXHeader (manufacturer version encoding bits_per_pixel xmin ymin xmax ymax hdpi vdpi : Nat)
    (colormap : List Nat)
    (reserved num_planes bytes_per_line palette_type hscreen_size vscreen_size : Nat)
    (filler : List Nat) : PCXHeader :=
  { manufacturer := manufacturer, version := version, encoding := encoding,
    bits_per_pixel := bits_per_pixel, xmin := xmin, ymin := ymin,
    xmax := xmax, ymax := ymax, hdpi := hdpi, vdpi := vdpi,
    colormap := colormap, reserved := reserved, num_planes := num_planes,
    bytes_per_line := bytes_per_line, palette_type := palette_type,
    hscreen_size := hscreen_size, vscreen_size := vscreen_size,
    filler := filler,
    width := (xmax : Int) - (xmin : Int) + 1,
    height := (ymax : Int) - (ymin : Int) + 1,
    color_mode := determine_color_mode bits_per_pixel num_planes }

/-- `PCXHeader.validate`: collects all violated invariants, in source
order, and returns `(len(errors) == 0, errors)`.  The message strings
follow the Python f-strings; Python's floor division `//` is `Int.fdiv`. -/
def PCXHeader.validate (h : PCXHeader) : Bool × List String :=
  let errors : List String :=
    (if h.manufacturer ≠ 0x0A then
       ["Invalid manufacturer byte: 0x" ++ hex2 h.manufacturer ++ " (expected 0x0A)"]
     else []) ++
    (if h.encoding ∉ [0, 1] then
       ["Unsupported encoding: " ++ toString h.encoding ++
        " (only 0=uncompressed and 1=RLE are supported)"]
     else []) ++
    (if h.version ∉ [0, 2, 3, 4, 5] then
       ["Unknown version: " ++ toString h.version]
     else []) ++
    (if h.bits_per_pixel ∉ [1, 2, 4, 8] then
       ["Invalid bits per pixel: " ++ toString h.bits_per_pixel]
     else []) ++
    (if h.xmax < h.xmin then
       ["Invalid X dimensions: xmax (" ++ toString h.xmax ++ ") < xmin (" ++
        toString h.xmin ++ ")"]
     else []) ++
    (if h.ymax < h.ymin then
       ["Invalid Y dimensions: ymax (" ++ toString h.ymax ++ ") < ymin (" ++
        toString h.ymin ++ ")"]
     else []) ++
    (if h.width ≤ 0 ∨ h.height ≤ 0 then
       ["Invalid image size: " ++ toString h.width ++ "x" ++ toString h.height]
     else []) ++
    (if h.bytes_per_line % 2 ≠ 0 then
       ["Bytes per line must be even: " ++ toString h.bytes_per_line]
     else []) ++
    (if (h.bytes_per_line : Int) < Int.fdiv (h.width * (h.bits_per_pixel : Int) + 7) 8 then
       ["Bytes per line (" ++ toString h.bytes_per_line ++
        ") too small for image width (" ++ toString h.width ++ ")"]
     else []) ++
    (if h.num_planes ∉ [1, 3, 4] then
       ["Unusual number of planes: " ++ toString h.num_planes]
     else [])
  (errors.length == 0, errors)

/-- A little-endian 16-bit quantity, as unpacked by struct code `H`
(unsigned). -/
def le16 (lo hi : Nat) : Nat := lo + 256 * hi

/-- `struct.unpack("<BBBBHHHHHH48sBBHHHH54s", header_bytes)` followed by
dataclass construction: field offsets and sizes follow the format string.
The argument is the raw 128-byte header. -/
def unpackHeader (b : List Nat) : PCXHeader :=
  mkPCXHeader (b.getD 0 0) (b.getD 1 0) (b.getD 2 0) (b.getD 3 0)
    (le16 (b.getD 4 0) (b.getD 5 0)) (le16 (b.getD 6 0) (b.getD 7 0))
    (le16 (b.getD 8 0) (b.getD 9 0)) (le16 (b.getD 10 0) (b.getD 11 0))
    (le16 (b.getD 12 0) (b.getD 13 0)) (le16 (b.getD 14 0) (b.getD 15 0))
    ((b.drop 16).take 48)
    (b.getD 64 0) (b.getD 65 0)
    (le16 (b.getD 66 0) (b.getD 67 0)) (le16 (b.getD 68 0) (b.getD 69 0))
    (le16 (b.getD 70 0) (b.getD 71 0)) (le16 (b.getD 72 0) (b.getD 73 0))
    ((b.drop 74).take 54)

/-- `PCXHeader.read_pcx_header_raw`: `f.read(128)` yields the first (at
most) 128 bytes; `_validate_header_length` raises `InvalidPCXError`
"File too small: only {n} bytes (need 128 for header)" when fewer than
128 were read. -/
def read_pcx_header_raw (file : List Nat) : Except PCXErr (List Nat) :=
  let header_bytes := file.take 128
  if header_bytes.length < 128 then
    .error (.tooSmallHeader header_bytes.length 128)
  else
    .ok header_bytes

/-- `PCXHeader.parse_pcx_header`: read the raw 128 bytes, unpack, validate;
an invalid header is rejected with the full list of violations. -/
def parse_pcx_header (file : List Nat) : Except PCXErr PCXHeader :=
  match read_pcx_header_raw file with
  | .error e => .error e
  | .ok header_bytes =>
    let header := unpackHeader header_bytes
    let v := header.validate
    if v.1 then .ok header else .error (.invalidHeader v.2)

/-- The `while` loop of `decompress_pcx_rle`: runs while
`len(decompressed) < total_needed and i < len(compressed_data)`, consuming
a run marker (top two bits set) together with its value byte, or a single
literal byte. -/
def rleLoop (data : List Nat) (total_needed : Nat) (acc : List Nat) :
    Except PCXErr (List Nat) :=
  if total_needed ≤ acc.length then .ok acc
  else
    match data with
    | [] => .ok acc
    | b :: rest =>
      if b &&& 0xC0 = 0xC0 then
        match rest with
        | [] => .error .missingRunValue
        | v :: rest2 => rleLoop rest2 total_needed (acc ++ List.replicate (b &&& 0x3F) v)
      else
        rleLoop rest total_needed (acc ++ [b])

/-- `decompress_pcx_rle(compressed_data, bytes_per_line, num_planes,
height)` of `pcx_rle.py`. -/
def decompress_pcx_rle (compressed_data : List Nat)
    (bytes_per_line num_planes height : Nat) : Except PCXErr (List Nat) :=
  let total_bytes_needed := bytes_per_line * num_planes * height
  match rleLoop compressed_data total_bytes_needed [] with
  | .error e => .error e
  | .ok decompressed =>
    if decompressed.length < total_bytes_needed then
      .error (.incompleteData decompressed.length total_bytes_needed)
    else
      .ok (decompressed.take total_bytes_needed)

/-- The full RLE expansion of a compressed stream, with no output cutoff:
"the expanded stream" that `decompress_pcx_rle` truncates.  Same token
grammar as `rleLoop`. -/
def rleExpand : List Nat → Except PCXErr (List Nat)
  | [] => .ok []
  | b :: rest =>
    if b &&& 0xC0 = 0xC0 then
      match rest with
      | [] => .error .missingRunValue
      | v :: rest2 =>
        match rleExpand rest2 with
        | .error e => .error e
        | .ok s => .ok (List.replicate (b &&& 0x3F) v ++ s)
    else
      match rleExpand rest with
      | .error e => .error e
      | .ok s => .ok (b :: s)

/-- Modelled from the spec: `read_256_color_palette` is imported from
`pcx_header` by `utils/pcx.py` and by the tests, but its definition is not
among the provided sources.  Following §4.3 of the spec: require
`file_length >= 128 + 769`, else `TooSmallForPaletteError`; read the byte
at offset `file_length - 769` and require it to be `0x0C`, else
`MissingPaletteMarkerError`; on success return the following 768 bytes
verbatim. -/
def read_256_color_palette (file : List Nat) : Except PCXErr (List Nat) :=
  if file.length < 128 + 769 then .error .tooSmallForPalette
  else if file.getD (file.length - 769) 0 ≠ 0x0C then .error .missingPaletteMarker
  else .ok (file.drop (file.length - 768))

/-- Modelled from the spec: the signed little-endian 16-bit interpretation
("signed range bounds") that §3 of the spec ascribes to
`xmin/ymin/xmax/ymax`.  Used only to state claim C3 against the code. -/
def signed_le16_spec (lo hi : Nat) : Int :=
  if lo + 256 * hi < 32768 then (lo + 256 * hi : Int)
  else (lo + 256 * hi : Int) - 65536

/-- A color-table entry: the RGB components handed to
`QColor(r, g, b).rgb()`; the entry is represented by the triple since
`.rgb()` is determined by (and injective in) the three byte components. -/
abbrev ColorEntry := Nat × Nat × Nat

/-- The grayscale fallback table `[QColor(i, i, i).rgb() for i in
range(256)]` of `_create_8bit_qimage`. -/
def grayscale_color_table : List ColorEntry :=
  (List.range 256).map fun i => (i, i, i)

/-- The color table built from a successfully read 256-color palette:
entry `i` is `(palette_data[i*3], palette_data[i*3+1],
palette_data[i*3+2])`. -/
def color_table_from_palette (palette_data : List Nat) : List ColorEntry :=
  (List.range 256).map fun i =>
    (palette_data.getD (i * 3) 0, palette_data.getD (i * 3 + 1) 0,
     palette_data.getD (i * 3 + 2) 0)

/-- The scanline extraction of `_create_8bit_qimage`: for each row `y`,
`pixel_data[y * bytes_per_line : y * bytes_per_line + width]`.  Python's
`range` over a possibly negative bound is modelled by `Int.toNat`. -/
def scanline_rows (pixel_data : List Nat) (header : PCXHeader) : List (List Nat) :=
  (List.range header.height.toNat).map fun y =>
    (pixel_data.drop (y * header.bytes_per_line)).take header.width.toNat

/-- The result of `_create_8bit_qimage`: a `Format_Indexed8` QImage is a
width, a height, a 256-entry color table and the per-row palette
indices. -/
structure DecodedImage where
  width : Nat
  height : Nat
  colorTable : List ColorEntry
  pixels : List (List Nat)
  deriving DecidableEq

/-- `_create_8bit_qimage(file_path, pixel_data, header)` of
`utils/pcx.py`: try to read the 256-color palette and use it as the color
table, fall back to the grayscale ramp on `InvalidPCXError`; then fill the
image scanline by scanline (`setPixel` raises IndexError when a scanline
is shorter than the width). -/
def create_8bit_qimage (file pixel_data : List Nat) (header : PCXHeader) :
    Except PyErr DecodedImage :=
  let color_table :=
    match read_256_color_palette file with
    | .ok palette_data => color_table_from_palette palette_data
    | .error _ => grayscale_color_table
  let rows := scanline_rows pixel_data header
  if rows.all (fun r => r.length == header.width.toNat) then
    .ok { width := header.width.toNat, height := header.height.toNat,
          colorTable := color_table, pixels := rows }
  else
    .error .indexError

/-- A structurally valid 128-byte header: the defaults of the tests'
`create_test_pcx_header` (640x480, 8-bit, one plane, RLE). -/
def sampleHeaderBytes : List Nat :=
  [10, 5, 1, 8, 0, 0, 0, 0, 127, 2, 223, 1, 44, 1, 44, 1] ++
    List.replicate 48 0 ++
    [0, 1, 128, 2, 1, 0, 0, 0, 0, 0] ++
    List.replicate 54 0

/-- The 128-byte header of claim C4's scenario: `manufacturer=0xFF,
encoding=2, xmin=100, xmax=50, bytes_per_line=101`, all other fields as in
the tests' defaults. -/
def c4HeaderBytes : List Nat :=
  [255, 5, 2, 8, 100, 0, 0, 0, 50, 0, 223, 1, 44, 1, 44, 1] ++
    List.replicate 48 0 ++
    [0, 1, 101, 0, 1, 0, 0, 0, 0, 0] ++
    List.replicate 54 0

/-- A 128-byte header whose xmin field holds `0xFFFF`, separating the
unsigned parse from the signed interpretation. -/
def c3HeaderBytes : List Nat :=
  [10, 5, 1, 8, 255, 255] ++ List.replicate 122 0

/-- A 897-byte file consisting of a zero header, the palette marker
`0x0C` at offset `file_length - 769`, and 768 palette bytes. -/
def samplePaletteFile : List Nat :=
  List.replicate 128 0 ++ 12 :: List.replicate 768 5

/-- A 1x1 8-bit single-plane header (xmin=ymin=xmax=ymax=0,
bytes_per_line=1), used to exercise `create_8bit_qimage`. -/
def sampleTinyHeader : PCXHeader :=
  mkPCXHeader 10 5 1 8 0 0 0 0 300 300 (List.replicate 48 0) 0 1 1 1 0 0
    (List.replicate 54 0)

deriving instance DecidableEq for Except

/-- The decode loop on an exhausted input returns the output accumulated
so far, whatever the byte budget. -/
theorem rleLoop_nil (total : Nat) (acc : List Nat) : rleLoop [] total acc = .ok acc := by
  unfold rleLoop
  split <;> rfl

/-- If the full expansion of `data` is `s` and even `acc ++ s` stays below
the byte budget, the decode loop consumes all of `data` and returns
`acc ++ s`. -/
theorem rleLoop_exhaust (n : Nat) : ∀ data : List Nat, data.length ≤ n →
    ∀ (s acc : List Nat) (total : Nat),
    rleExpand data = .ok s → acc.length + s.length < total →
    rleLoop data total acc = .ok (acc ++ s) := by
  induction n with
  | zero =>
    intro data hlen s acc total hexp _
    have hd : data = [] := List.length_eq_zero.mp (Nat.le_zero.mp hlen)
    subst hd
    simp only [rleExpand, Except.ok.injEq] at hexp
    subst hexp
    simp [rleLoop_nil]
  | succ n ih =>
    intro data hlen s acc total hexp hlt
    match data with
    | [] =>
      simp only [rleExpand, Except.ok.injEq] at hexp
      subst hexp
      simp [rleLoop_nil]
    | b :: rest =>
      have hacc : ¬ total ≤ acc.length := by omega
      by_cases hb : b &&& 0xC0 = 0xC0
      · match rest with
        | [] => simp [rleExpand, hb] at hexp
        | v :: rest2 =>
          rw [rleExpand] at hexp
          rw [if_pos hb] at hexp
          cases hre : rleExpand rest2 with
          | error e => rw [hre] at hexp; exact absurd hexp (by simp)
          | ok s2 =>
            rw [hre] at hexp
            simp only [Except.ok.injEq] at hexp
            subst hexp
            rw [rleLoop, if_neg hacc, if_pos hb]
            have hlen2 : rest2.length ≤ n := by
              simp only [List.length_cons] at hlen; omega
            have := ih rest2 hlen2 s2 (acc ++ List.replicate (b &&& 0x3F) v) total hre
              (by simp at hlt ⊢; omega)
            rw [this, List.append_assoc]
      · match rest with
        | [] =>
          rw [rleExpand] at hexp
          rw [if_neg hb] at hexp
          simp only [rleExpand, Except.ok.injEq] at hexp
          subst hexp
          rw [rleLoop, if_neg hacc, if_neg hb, rleLoop_nil]
        | v :: rest2 =>
          rw [rleExpand] at hexp
          rw [if_neg hb] at hexp
          cases hre : rleExpand (v :: rest2) with
          | error e => rw [hre] at hexp; exact absurd hexp (by simp)
          | ok s2 =>
            rw [hre] at hexp
            simp only [Except.ok.injEq] at hexp
            subst hexp
            rw [rleLoop, if_neg hacc, if_neg hb]
            have hlen2 : (v :: rest2).length ≤ n := by
              simp only [List.length_cons] at hlen ⊢; omega
            have := ih (v :: rest2) hlen2 s2 (acc ++ [b]) total hre
              (by simp at hlt ⊢; omega)
            rw [this, List.append_assoc]
            rfl

/-- If the full expansion of `data` is `s` and `acc ++ s` reaches the byte
budget, the decode loop stops at a whole-token boundary: it returns
`acc ++ t` for some prefix `t` of `s` with `acc ++ t` at or past the
budget. -/
theorem rleLoop_reach (n : Nat) : ∀ data : List Nat, data.length ≤ n →
    ∀ (s acc : List Nat) (total : Nat),
    rleExpand data = .ok s → total ≤ acc.length + s.length →
    ∃ t u, t ++ u = s ∧ rleLoop data total acc = .ok (acc ++ t) ∧
      total ≤ acc.length + t.length := by
  induction n with
  | zero =>
    intro data hlen s acc total hexp hge
    have hd : data = [] := List.length_eq_zero.mp (Nat.le_zero.mp hlen)
    subst hd
    simp only [rleExpand, Except.ok.injEq] at hexp
    subst hexp
    exact ⟨[], [], rfl, by simp [rleLoop_nil], by simp at hge ⊢; omega⟩
  | succ n ih =>
    intro data hlen s acc total hexp hge
    by_cases hacc : total ≤ acc.length
    · refine ⟨[], s, by simp, ?_, by omega⟩
      unfold rleLoop
      rw [if_pos hacc]
      simp
    · match data with
      | [] =>
        simp only [rleExpand, Except.ok.injEq] at hexp
        subst hexp
        simp at hge
        omega
      | b :: rest =>
        by_cases hb : b &&& 0xC0 = 0xC0
        · match rest with
          | [] => simp [rleExpand, hb] at hexp
          | v :: rest2 =>
            rw [rleExpand] at hexp
            rw [if_pos hb] at hexp
            cases hre : rleExpand rest2 with
            | error e => rw [hre] at hexp; exact absurd hexp (by simp)
            | ok s2 =>
              rw [hre] at hexp
              simp only [Except.ok.injEq] at hexp
              subst hexp
              have hlen2 : rest2.length ≤ n := by
                simp only [List.length_cons] at hlen; omega
              obtain ⟨t2, u2, htu, hloop, hget⟩ :=
                ih rest2 hlen2 s2 (acc ++ List.replicate (b &&& 0x3F) v) total hre
                  (by simp at hge ⊢; omega)
              refine ⟨List.replicate (b &&& 0x3F) v ++ t2, u2, ?_, ?_, ?_⟩
              · rw [List.append_assoc, htu]
              · rw [rleLoop, if_neg hacc, if_pos hb, hloop, List.append_assoc]
              · simp at hget ⊢; omega
        · match rest with
          | [] =>
            rw [rleExpand] at hexp
            rw [if_neg hb] at hexp
            simp only [rleExpand, Except.ok.injEq] at hexp
            subst hexp
            refine ⟨[b], [], rfl, ?_, ?_⟩
            · rw [rleLoop, if_neg hacc, if_neg hb, rleLoop_nil]
            · simp at hge ⊢; omega
          | v :: rest2 =>
            rw [rleExpand] at hexp
            rw [if_neg hb] at hexp
            cases hre : rleExpand (v :: rest2) with
            | error e => rw [hre] at hexp; exact absurd hexp (by simp)
            | ok s2 =>
              rw [hre] at hexp
              simp only [Except.ok.injEq] at hexp
              subst hexp
              have hlen2 : (v :: rest2).length ≤ n := by
                simp only [List.length_cons] at hlen ⊢; omega
              obtain ⟨t2, u2, htu, hloop, hget⟩ :=
                ih (v :: rest2) hlen2 s2 (acc ++ [b]) total hre (by simp at hge ⊢; omega)
              refine ⟨b :: t2, u2, by simp [htu], ?_, ?_⟩
              · rw [rleLoop, if_neg hacc, if_neg hb, hloop]
                simp
              · simp at hget ⊢; omega

/-- C5 (counterexample): as stated, the claim fails: `0xC3` is a run
marker with run length `3 ≤ 4 = total_needed`, yet decoding `[0xC3, 0xFF]`
with `total_needed = 4` raises `IncompleteDataError` instead of returning
the run. -/
theorem C5_counterexample :
    0xC3 &&& 0xC0 = 0xC0 ∧ 0xC3 &&& 0x3F ≤ 4 * 1 * 1 ∧
    decompress_pcx_rle [0xC3, 0xFF] 4 1 1 ≠
      .ok (List.replicate (0xC3 &&& 0x3F) 0xFF) ∧
    decompress_pcx_rle [0xC3, 0xFF] 4 1 1 = .error (.incompleteData 3 4) := by
  decide

/-- C5 (amended): for every run byte `b` (`(b & 0xC0) == 0xC0`) and value
byte `v`, decoding `[b, v]` with `total_needed` exactly `b & 0x3F` yields
`v` repeated `b & 0x3F` times; for every literal byte `b`
(`(b & 0xC0) != 0xC0`), decoding `[b]` with `total_needed = 1` yields
`[b]` unchanged. -/
theorem C5_single_token_rle (b v : Nat) :
    (b &&& 0xC0 = 0xC0 →
      decompress_pcx_rle [b, v] (b &&& 0x3F) 1 1 =
        .ok (List.replicate (b &&& 0x3F) v)) ∧
    (b &&& 0xC0 ≠ 0xC0 →
      decompress_pcx_rle [b] 1 1 1 = .ok [b]) := by
  constructor
  · intro hb
    by_cases h0 : b &&& 0x3F = 0
    · simp [decompress_pcx_rle, rleLoop, h0]
    · have hpos : 0 < b &&& 0x3F := Nat.pos_of_ne_zero h0
      rw [decompress_pcx_rle]
      simp only [Nat.mul_one]
      rw [rleLoop, if_neg (by simp; omega), if_pos hb, List.nil_append, rleLoop_nil]
      simp [List.take_replicate]
  · intro hb
    rw [decompress_pcx_rle]
    simp only [Nat.mul_one, Nat.one_mul]
    rw [rleLoop, if_neg (by simp), if_neg hb, rleLoop_nil]
    simp

/-- C5 witness: `decode([0xC5, 0xAA], total 5)` is five `0xAA` bytes and
`decode([0x3F], total 1)` is the literal back. -/
theorem C5_witness :
    decompress_pcx_rle [0xC5, 0xAA] (0xC5 &&& 0x3F) 1 1 =
      .ok (List.replicate (0xC5 &&& 0x3F) 0xAA) ∧
    decompress_pcx_rle [0x3F] 1 1 1 = .ok [0x3F] :=
  ⟨(C5_single_token_rle 0xC5 0xAA).1 (by decide),
   (C5_single_token_rle 0x3F 0).2 (by decide)⟩

/-- C6: truncation law: whenever the full expansion of the input is
longer than `total_needed = bytes_per_line * num_planes * height`,
`decompress_pcx_rle` succeeds with exactly `total_needed` bytes, a prefix
of the expanded stream. -/
theorem C6_truncation_law (data s : List Nat) (bytes_per_line num_planes height : Nat)
    (hexp : rleExpand data = .ok s)
    (hover : bytes_per_line * num_planes * height < s.length) :
    decompress_pcx_rle data bytes_per_line num_planes height =
      .ok (s.take (bytes_per_line * num_planes * height)) ∧
    (s.take (bytes_per_line * num_planes * height)).length =
      bytes_per_line * num_planes * height := by
  obtain ⟨t, u, htu, hloop, hget⟩ :=
    rleLoop_reach data.length data le_rfl s []
      (bytes_per_line * num_planes * height) hexp (by simp; omega)
  simp only [List.nil_append, List.length_nil, Nat.zero_add] at hloop hget
  constructor
  · rw [decompress_pcx_rle]
    simp only [hloop]
    rw [if_neg (by omega)]
    subst htu
    rw [List.take_append_eq_append_take,
      Nat.sub_eq_zero_of_le hget, List.take_zero, List.append_nil]
  · rw [List.length_take]
    omega

/-- C6 witness: `decode([0xC5, 0xAA], total 3)`: the run of five `0xAA`
overshoots and is truncated to three bytes. -/
theorem C6_witness :
    rleExpand [0xC5, 0xAA] = .ok (List.replicate 5 0xAA) ∧
    decompress_pcx_rle [0xC5, 0xAA] 3 1 1 =
      .ok ((List.replicate 5 0xAA).take (3 * 1 * 1)) :=
  ⟨by rfl, (C6_truncation_law [0xC5, 0xAA] (List.replicate 5 0xAA) 3 1 1
      (by rfl) (by decide)).1⟩

/-- C7: whenever the input is exhausted with the full expansion still
shorter than `total_needed = bytes_per_line * num_planes * height`,
`decompress_pcx_rle` fails with `IncompleteDataError` carrying the
produced and the expected lengths. -/
theorem C7_incomplete_data (data s : List Nat) (bytes_per_line num_planes height : Nat)
    (hexp : rleExpand data = .ok s)
    (hshort : s.length < bytes_per_line * num_planes * height) :
    decompress_pcx_rle data bytes_per_line num_planes height =
      .error (.incompleteData s.length (bytes_per_line * num_planes * height)) := by
  have hl := rleLoop_exhaust data.length data le_rfl s []
    (bytes_per_line * num_planes * height) hexp (by simp; omega)
  rw [decompress_pcx_rle]
  simp only [hl, List.nil_append]
  rw [if_pos hshort]

/-- C7 witness: `decode([0xC3, 0xFF], bpl=5, planes=1, height=1)` fails
reporting produced 3 and expected 5. -/
theorem C7_witness :
    decompress_pcx_rle [0xC3, 0xFF] 5 1 1 = .error (.incompleteData 3 5) := by
  have h := C7_incomplete_data [0xC3, 0xFF] (List.replicate 3 0xFF) 5 1 1
    (by rfl) (by decide)
  simpa using h

/-- C10: a zero-length run marker `0xC0` reached while the output is
still short of the budget consumes the following value byte, appends
nothing, and parsing continues after it (`0xC0` is never a literal); a
trailing `0xC0` with no value byte fails with the missing-value error. -/
theorem C10_zero_length_run (v : Nat) (rest acc : List Nat) (total : Nat)
    (h : acc.length < total) :
    rleLoop (0xC0 :: v :: rest) total acc = rleLoop rest total acc ∧
    rleLoop [0xC0] total acc = .error .missingRunValue := by
  constructor
  · rw [rleLoop, if_neg (by omega), if_pos (by decide)]
    rw [show (0xC0 : Nat) &&& 0x3F = 0 from by decide]
    rw [List.replicate_zero, List.append_nil]
  · rw [rleLoop, if_neg (by omega), if_pos (by decide)]

/-- C10 witness: at `total_needed = 1` with empty output, `[0xC0, 7]`
decodes like the empty stream after consuming both bytes, and a lone
`[0xC0]` is the missing-value error. -/
theorem C10_witness :
    rleLoop [0xC0, 7] 1 [] = rleLoop [] 1 [] ∧
    rleLoop [0xC0] 1 [] = .error .missingRunValue :=
  C10_zero_length_run 7 [] [] 1 (by decide)

/-- C1 (spec-modelled): `read_256_color_palette` fails with the
too-small error below `128 + 769` bytes, fails with the missing-marker
error when the byte at `file_length - 769` is not `0x0C`, and otherwise
returns the final 768 bytes of the file verbatim. -/
theorem C1_read_256_palette (file : List Nat) :
    (file.length < 128 + 769 →
      read_256_color_palette file = .error .tooSmallForPalette) ∧
    (128 + 769 ≤ file.length → file.getD (file.length - 769) 0 ≠ 0x0C →
      read_256_color_palette file = .error .missingPaletteMarker) ∧
    (128 + 769 ≤ file.length → file.getD (file.length - 769) 0 = 0x0C →
      read_256_color_palette file = .ok (file.drop (file.length - 768)) ∧
      (file.drop (file.length - 768)).length = 768) := by
  refine ⟨?_, ?_, ?_⟩
  · intro hl
    rw [read_256_color_palette, if_pos hl]
  · intro hl hm
    rw [read_256_color_palette, if_neg (by omega), if_pos hm]
  · intro hl hm
    refine ⟨?_, ?_⟩
    · rw [read_256_color_palette, if_neg (by omega), if_neg (not_not_intro hm)]
    · rw [List.length_drop]
      omega

/-- C1 witness: a 897-byte file with marker `0x0C` at offset 128 and 768
palette bytes of value 5 yields exactly those 768 bytes. -/
theorem C1_witness :
    read_256_color_palette samplePaletteFile = .ok (List.replicate 768 5) ∧
    (List.replicate 768 5).length = 768 := by
  have h := (C1_read_256_palette samplePaletteFile).2.2 (by decide) (by decide)
  exact ⟨h.1.trans (by rfl), by decide⟩

/-- C2: `_create_8bit_qimage` catches a palette-read failure locally and
falls back to the grayscale ramp `table[i] = (i, i, i)`, still producing
the decoded image; a successfully read 256-color palette is used as the
color table instead. -/
theorem C2_palette_fallback (file pixel_data : List Nat) (header : PCXHeader)
    (hrows : ∀ r ∈ scanline_rows pixel_data header, r.length = header.width.toNat) :
    (∀ e, read_256_color_palette file = .error e →
      create_8bit_qimage file pixel_data header =
        .ok { width := header.width.toNat, height := header.height.toNat,
              colorTable := grayscale_color_table,
              pixels := scanline_rows pixel_data header }) ∧
    (∀ p, read_256_color_palette file = .ok p →
      create_8bit_qimage file pixel_data header =
        .ok { width := header.width.toNat, height := header.height.toNat,
              colorTable := color_table_from_palette p,
              pixels := scanline_rows pixel_data header }) ∧
    (∀ i, i < 256 → grayscale_color_table.getD i (0, 0, 0) = (i, i, i)) := by
  have hall : ((scanline_rows pixel_data header).all
      (fun r => r.length == header.width.toNat)) = true := by
    simp only [List.all_eq_true, beq_iff_eq]
    exact hrows
  refine ⟨?_, ?_, ?_⟩
  · intro e he
    simp only [create_8bit_qimage, he]
    rw [if_pos hall]
  · intro p hp
    simp only [create_8bit_qimage, hp]
    rw [if_pos hall]
  · intro i hi
    simp [grayscale_color_table, List.getD_eq_getElem?_getD, List.getElem?_map,
      List.getElem?_range, hi]

/-- C2 witness: decoding a 1x1 image from an empty file (no palette
available) yields the image with the grayscale color table. -/
theorem C2_witness :
    create_8bit_qimage [] [5] sampleTinyHeader =
      .ok { width := 1, height := 1, colorTable := grayscale_color_table,
            pixels := [[5]] } :=
  (C2_palette_fallback [] [5] sampleTinyHeader (by decide)).1
    .tooSmallForPalette (by rfl)

/-- C3 (counterexample): the code parses the range bounds unsigned: with
`FF FF` in the xmin field, `xmin` parses to 65535, while the claimed
signed interpretation of those bytes is -1. -/
theorem C3_counterexample :
    ((unpackHeader c3HeaderBytes).xmin : Int) ≠
      signed_le16_spec (c3HeaderBytes.getD 4 0) (c3HeaderBytes.getD 5 0) ∧
    (unpackHeader c3HeaderBytes).xmin = 65535 ∧
    signed_le16_spec 255 255 = -1 := by
  refine ⟨by decide, by decide, by decide⟩

/-- C3 (amended): `xmin, ymin, xmax, ymax` are parsed from bytes 4..11 of
the header as unsigned little-endian 16-bit integers (struct code `H`). -/
theorem C3_bounds_unsigned_le16 (b : List Nat) :
    (unpackHeader b).xmin = b.getD 4 0 + 256 * b.getD 5 0 ∧
    (unpackHeader b).ymin = b.getD 6 0 + 256 * b.getD 7 0 ∧
    (unpackHeader b).xmax = b.getD 8 0 + 256 * b.getD 9 0 ∧
    (unpackHeader b).ymax = b.getD 10 0 + 256 * b.getD 11 0 :=
  ⟨rfl, rfl, rfl, rfl⟩

set_option maxHeartbeats 2000000 in
/-- C4: every violated invariant is aggregated into one structured error
(a header with any violation is rejected outright), and the scenario
header `manufacturer=0xFF, encoding=2, xmin=100, xmax=50,
bytes_per_line=101` is flagged for the manufacturer byte, the encoding,
the X dimensions, and the odd bytes-per-line simultaneously. -/
theorem C4_validation_aggregates :
    (∀ file : List Nat, 128 ≤ file.length →
      (unpackHeader (file.take 128)).validate.2 ≠ [] →
      parse_pcx_header file =
        .error (.invalidHeader (unpackHeader (file.take 128)).validate.2)) ∧
    ((unpackHeader c4HeaderBytes).validate.1 = false ∧
      "Invalid manufacturer byte: 0xFF (expected 0x0A)" ∈
        (unpackHeader c4HeaderBytes).validate.2 ∧
      "Unsupported encoding: 2 (only 0=uncompressed and 1=RLE are supported)" ∈
        (unpackHeader c4HeaderBytes).validate.2 ∧
      "Invalid X dimensions: xmax (50) < xmin (100)" ∈
        (unpackHeader c4HeaderBytes).validate.2 ∧
      "Bytes per line must be even: 101" ∈
        (unpackHeader c4HeaderBytes).validate.2) := by
  constructor
  · intro file hlen hne
    have hro : read_pcx_header_raw file = .ok (file.take 128) := by
      simp only [read_pcx_header_raw, List.length_take]
      rw [if_neg (by omega)]
    have hv : (unpackHeader (file.take 128)).validate.1 = false := by
      have hd : (unpackHeader (file.take 128)).validate.1 =
          ((unpackHeader (file.take 128)).validate.2.length == 0) := rfl
      rw [hd, beq_eq_false_iff_ne]
      exact fun hh => hne (List.length_eq_zero.mp hh)
    rw [parse_pcx_header, hro]
    simp only []
    rw [hv]
    simp
  · decide

set_option maxHeartbeats 2000000 in
/-- C4 witness: the scenario header, padded to a 128-byte file, is
rejected with the aggregated error list. -/
theorem C4_witness :
    parse_pcx_header c4HeaderBytes =
      .error (.invalidHeader (unpackHeader (c4HeaderBytes.take 128)).validate.2) :=
  C4_validation_aggregates.1 c4HeaderBytes (by decide) (by decide)

/-- C8: every header accepted by `parse_pcx_header` has
`width = xmax - xmin + 1` and `height = ymax - ymin + 1`, both strictly
positive. -/
theorem C8_derived_dimensions (file : List Nat) (h : PCXHeader)
    (hp : parse_pcx_header file = .ok h) :
    h.width = (h.xmax : Int) - (h.xmin : Int) + 1 ∧
    h.height = (h.ymax : Int) - (h.ymin : Int) + 1 ∧
    0 < h.width ∧ 0 < h.height := by
  cases hr : read_pcx_header_raw file with
  | error e =>
    rw [parse_pcx_header, hr] at hp
    exact absurd hp (by simp)
  | ok hb =>
    rw [parse_pcx_header, hr] at hp
    simp only [] at hp
    by_cases hv : (unpackHeader hb).validate.1 = true
    · rw [if_pos hv] at hp
      simp only [Except.ok.injEq] at hp
      subst hp
      refine ⟨rfl, rfl, ?_⟩
      have hv2 : ((unpackHeader hb).validate.2.length == 0) = true := hv
      have herr : (unpackHeader hb).validate.2 = [] :=
        List.length_eq_zero.mp (eq_of_beq hv2)
      simp only [PCXHeader.validate] at herr
      have hsize : ¬((unpackHeader hb).width ≤ 0 ∨ (unpackHeader hb).height ≤ 0) := by
        intro hc
        rw [if_pos hc] at herr
        simp at herr
      push_neg at hsize
      exact ⟨by omega, by omega⟩
    · rw [if_neg hv] at hp
      exact absurd hp (by simp)

set_option maxHeartbeats 2000000 in
/-- C8 witness: the tests' default 640x480 header parses and has positive
derived dimensions. -/
theorem C8_witness :
    parse_pcx_header sampleHeaderBytes =
      .ok (unpackHeader (sampleHeaderBytes.take 128)) ∧
    0 < (unpackHeader (sampleHeaderBytes.take 128)).width ∧
    0 < (unpackHeader (sampleHeaderBytes.take 128)).height := by
  have hp : parse_pcx_header sampleHeaderBytes =
      .ok (unpackHeader (sampleHeaderBytes.take 128)) := by decide
  exact ⟨hp, (C8_derived_dimensions sampleHeaderBytes _ hp).2.2.1,
    (C8_derived_dimensions sampleHeaderBytes _ hp).2.2.2⟩

/-- C9: header parsing reads exactly the first 128 bytes: fewer available
bytes give the too-small error carrying the actual count and the 128
required; with enough bytes the raw header is the 128-byte prefix; and
two files with the same 128-byte prefix parse identically. -/
theorem C9_reads_first_128 (file : List Nat) :
    (file.length < 128 →
      read_pcx_header_raw file = .error (.tooSmallHeader file.length 128)) ∧
    (128 ≤ file.length → read_pcx_header_raw file = .ok (file.take 128)) ∧
    (∀ g : List Nat, file.take 128 = g.take 128 →
      parse_pcx_header file = parse_pcx_header g) := by
  refine ⟨?_, ?_, ?_⟩
  · intro hl
    simp only [read_pcx_header_raw, List.length_take]
    rw [if_pos (by omega)]
    have hm : min 128 file.length = file.length := by omega
    rw [hm]
  · intro hl
    simp only [read_pcx_header_raw, List.length_take]
    rw [if_neg (by omega)]
  · intro g hg
    simp only [parse_pcx_header, read_pcx_header_raw]
    rw [hg]

/-- C9 witness: a 3-byte file is rejected reporting 3 bytes available
versus 128 required. -/
theorem C9_witness :
    read_pcx_header_raw [1, 2, 3] = .error (.tooSmallHeader 3 128) :=
  (C9_reads_first_128 [1, 2, 3]).1 (by decide)
